import Mathlib

/-!
Shallow embedding of the sandboxed execution and adaptive-repair engine of
src/ai_code_executer.py (class AiCodeExecuter).

The embedded pieces are:
  - STANDARD_LIBRARY_MODULES and PACKAGE_INSTALL_MAPPING (module constants);
  - the method extract dependencies (the regex-based scan over the snippet lines);
  - the method install dependency (pip invocation with one no-cache retry);
  - the method execute code (dependency gate, child process run, timeout and
    exception handling, temp file cleanup);
  - the retry loop of the method run (fix requests to the agent while the code
    keeps failing and the output does not mention a timeout).

Effectful operations (pip invocations, the write of the snippet into the
temp file, the child process run, temp file deletion) are modelled by an
explicit World value holding their outcomes, and each embedded function
additionally returns a trace of the external actions it performed, so that
the theorems can speak about which processes were launched, which pip calls
were made and whether the temp file was removed. An execute code call either
returns a report or propagates a fault: in the source the snippet is written
into the freshly created temp file before the try/finally that guards the
run, so a fault in that write escapes the method with the file left on disk.
-/

/-- ASCII whitespace characters, modelling the whitespace class of the Python
regular expression patterns (the inputs of interest are ASCII). -/
def isPySpace (c : Char) : Bool :=
  c = ' ' || c = '\t' || c = '\n' || c = '\r' || c = '\x0b' || c = '\x0c'

/-- Word characters of the regex class [a-zA-Z0-9_]. -/
def isWordChar (c : Char) : Bool :=
  c.isAlphanum || c = '_'

/-- Helper for splitLines: accumulates the current line in reverse. -/
def splitLinesAux : List Char → List Char → List (List Char)
  | [], acc => [acc.reverse]
  | c :: cs, acc =>
    if c = '\n' then acc.reverse :: splitLinesAux cs []
    else splitLinesAux cs (c :: acc)

/-- Models code.splitlines() from the source, with the newline character as the
separator. (Python also splits on some rarer separators and drops a final
empty line; the extra empty line produced here matches no import pattern, so
the collected dependencies agree.) -/
def splitLines (s : String) : List (List Char) :=
  splitLinesAux s.toList []

/-- The constant STANDARD_LIBRARY_MODULES of the source (a Python set,
modelled as a list with membership). -/
def STANDARD_LIBRARY_MODULES : List String :=
  ["os", "sys", "re", "tempfile", "subprocess", "traceback", "io", "json",
   "datetime", "collections", "math", "random", "argparse", "logging",
   "unittest", "itertools", "functools", "pathlib", "shutil", "time",
   "threading", "multiprocessing", "socket", "http", "urllib", "csv",
   "xml", "zipfile", "tarfile", "gzip", "bz2", "lzma", "hashlib", "hmac",
   "ssl", "asyncio", "concurrent", "contextlib", "dataclasses", "enum",
   "glob", "inspect", "pickle", "pprint", "queue", "signal", "statistics",
   "struct", "typing", "uuid", "warnings", "weakref", "webbrowser", "zoneinfo",
   "google", "colorama", "dotenv",
   "tkinter", "tk", "Tkinter"]

/-- The constant PACKAGE_INSTALL_MAPPING of the source (a Python dict,
modelled as an association list). -/
def PACKAGE_INSTALL_MAPPING : List (String × String) :=
  [("PIL", "pillow"),
   ("sklearn", "scikit-learn"),
   ("cv2", "opencv-python"),
   ("bs4", "beautifulsoup4"),
   ("matplotlib.pyplot", "matplotlib"),
   ("yaml", "pyyaml")]

/-- Matching of one line against the import pattern of extract dependencies:
after optional leading whitespace the line must start with one of the two
keywords (import or from), followed by at least one whitespace character, then the
captured token, a maximal nonempty run of word characters; the character
right after the token must be a dot, whitespace, or the end of the line.
This is exactly the language of the anchored Python pattern: backtracking
into a shorter token run cannot succeed because the following character
would then be a word character. -/
def importMatch (line : List Char) : Option String :=
  let rest := line.dropWhile isPySpace
  let afterKeyword : Option (List Char) :=
    if ("import".toList).isPrefixOf rest then some (rest.drop 6)
    else if ("from".toList).isPrefixOf rest then some (rest.drop 4)
    else none
  match afterKeyword with
  | none => none
  | some after =>
    match after with
    | [] => none
    | c :: _ =>
      if isPySpace c then
        let afterSpaces := after.dropWhile isPySpace
        let word := afterSpaces.takeWhile isWordChar
        let rest2 := afterSpaces.dropWhile isWordChar
        if word.isEmpty then none
        else
          match rest2 with
          | [] => some (String.mk word)
          | c2 :: _ =>
            if c2 = '.' || isPySpace c2 then some (String.mk word) else none
      else none

/-- The loop body of extract dependencies: for each line that matches the
pattern, the captured name is added when it is not a standard library module.
The Python set of collected names is modelled as a duplicate-free list in
insertion order (the source converts its set to a list on return, with an
unspecified order). -/
def collectDeps : List (List Char) → List String → List String
  | [], acc => acc
  | line :: rest, acc =>
    match importMatch line with
    | none => collectDeps rest acc
    | some d =>
      if d ∈ STANDARD_LIBRARY_MODULES then collectDeps rest acc
      else if d ∈ acc then collectDeps rest acc
      else collectDeps rest (acc ++ [d])

/-- The method extract dependencies of the source. -/
def extract_dependencies (code : String) : List String :=
  collectDeps (splitLines code) []

/-- Result of one completed pip invocation (returncode, stdout, stderr). -/
structure PipResult where
  returncode : Int
  stdout : String
  stderr : String
deriving DecidableEq

/-- Outcome of attempting one pip invocation: either the invocation completed
with a PipResult, or the attempt itself raised an exception (for instance the
pip executable was missing). -/
inductive PipCallOutcome
  | ok (r : PipResult)
  | raised (msg : String)
deriving DecidableEq

/-- Outcome of the child process run in execute code: the process completed
with an exit status and captured streams, the wall-clock timeout elapsed
(subprocess.run raises TimeoutExpired), or some other exception was raised
while preparing or launching (with its message and formatted traceback). -/
inductive ProcOutcome
  | completed (returncode : Int) (stdoutStr stderrStr : String)
  | timedOut
  | raised (msg tb : String)
deriving DecidableEq

/-- Outcome of writing the snippet into the freshly created temp file, inside
the with block of the source: either the write (and the implicit close)
completes, or it raises - for instance a locale encoding error on the Windows
path the source supports, or a full disk. NamedTemporaryFile has already
created the file on disk at that point. -/
inductive TempWriteOutcome
  | ok
  | raised (msg : String)
deriving DecidableEq

/-- The external world an execution attempt interacts with: the outcome of
each pip invocation (keyed by the installed name and whether the no-cache-dir
flag is passed), the outcome of writing the snippet to the temp file, the
outcome of the child process run, and whether deleting the temp file
succeeds. -/
structure World where
  pipInstall : String → Bool → PipCallOutcome
  tempWrite : TempWriteOutcome
  procRun : ProcOutcome
  unlinkOk : Bool

/-- The field max code retries of the source (set in the constructor). -/
def max_code_retries : Nat := 3

/-- The field max dependency install retries of the source. -/
def max_dependency_install_retries : Nat := 3

/-- The local timeout seconds of execute code. -/
def timeout_seconds : Nat := 60

/-- The method install dependency of the source. Returns the (success,
message) pair the method returns, together with the list of pip invocations
performed, each as (installed name, no-cache-dir flag). The source computes
the installable name through PACKAGE_INSTALL_MAPPING first, skips standard
library modules, invokes pip once, and on a nonzero result performs one
retry with the no-cache-dir flag; when the retry also fails, the message
returned is the one built from the first attempt. Any exception during the
attempts is caught and reported as a failure. -/
def install_dependency (w : World) (dep : String) (retryCount : Nat) :
    (Bool × String) × List (String × Bool) :=
  let installName := (PACKAGE_INSTALL_MAPPING.lookup dep).getD dep
  if dep ∈ STANDARD_LIBRARY_MODULES then
    ((true, ("Skipped " ++ dep ++ " (standard/built-in)")), [])
  else
    match w.pipInstall installName false with
    | .raised e =>
      ((false, ("Error during pip install for " ++ dep ++ ": " ++ e)), [(installName, false)])
    | .ok r =>
      if r.returncode = 0 then
        ((true, ""), [(installName, false)])
      else
        if retryCount < max_dependency_install_retries then
          match w.pipInstall installName true with
          | .raised e =>
            ((false, ("Error during pip install for " ++ dep ++ ": " ++ e)),
             [(installName, false), (installName, true)])
          | .ok r2 =>
            if r2.returncode = 0 then
              ((true, ""), [(installName, false), (installName, true)])
            else
              ((false, ("Failed to install " ++ dep ++ ". Pip:\n" ++ r.stdout ++ "\n" ++ r.stderr)),
               [(installName, false), (installName, true)])
        else
          ((false, ("Failed to install " ++ dep ++ ". Pip:\n" ++ r.stdout ++ "\n" ++ r.stderr)),
           [(installName, false)])

/-- Classification of an execution attempt, following the exit paths of
execute code: exit status zero, nonzero exit status, timeout, failed
dependency installation, or an unexpected exception. -/
inductive Classification
  | success
  | runtimeFailure
  | timeout
  | dependencyFailure
  | internalError
deriving DecidableEq

/-- Trace of the external actions performed by one execute code call. -/
structure ExecTrace where
  pipCalls : List (String × Bool)
  tempFileCreated : Bool
  processLaunched : Bool
  killAttempted : Bool
  unlinkAttempted : Bool
  fileDeleted : Bool
deriving DecidableEq

/-- The value produced by one execute code call: the output string and exit
status the method returns, the classification of the exit path taken, and
the trace of external actions. -/
structure ExecOutcome where
  output : String
  exitCode : Int
  classification : Classification
  trace : ExecTrace
deriving DecidableEq

/-- A fault that escapes an execute code call: the exception message, with
the trace of the external actions performed before it escaped. -/
structure ExecFault where
  msg : String
  trace : ExecTrace
deriving DecidableEq

/-- The observable behaviour of one execute code call: either the method
returns a report, or an exception propagates out of the method to the
caller. -/
inductive ExecCallResult
  | report (o : ExecOutcome)
  | propagated (f : ExecFault)
deriving DecidableEq

/-- The failing dependencies collected by the installation loop of execute
code, with the message of each (the failed dependencies list of the
source). -/
def failedDependencies (w : World) (code : String) : List (String × String) :=
  (extract_dependencies code).filterMap fun dep =>
    if (install_dependency w dep 0).1.1 then none
    else some (dep, (install_dependency w dep 0).1.2)

/-- All pip invocations performed by the installation loop of execute code,
in order. -/
def pipCallsOf (w : World) (code : String) : List (String × Bool) :=
  (extract_dependencies code).foldl (fun acc dep => acc ++ (install_dependency w dep 0).2) []

/-- One line of the aggregated dependency failure message. -/
def depFailLine : String × String → String
  | (dep, err) => ("- " ++ dep ++ ": " ++ err ++ "\n")

/-- The aggregated failure message built by execute code when some
dependencies failed to install (string concatenation in a loop over the
failed dependencies). -/
def depFailureMessage (failed : List (String × String)) : String :=
  failed.foldl (fun acc p => acc ++ depFailLine p) "Failed to install dependencies:\n"

/-- Models stderr.strip() being empty: every character is whitespace. -/
def isBlankStr (s : String) : Bool :=
  s.toList.all isPySpace

/-- The method execute code of the source (the retry-count parameter of the
source only affects a log line and is omitted). Paths, in source order:
  - dependency gate: extraction plus installation; when any dependency
    failed, the aggregated message and exit status -1 are returned before
    the temp file is created and before any process is launched;
  - prepare: NamedTemporaryFile creates the temp file, then the snippet is
    written into it inside the with block; this still precedes the
    try/finally that guards the run, so when the write (or the implicit
    close) raises, the created file is never deleted and the exception
    propagates out of the method - no report is produced on that path;
  - run: the file is executed under the venv interpreter: exit status zero
    returns the captured stdout; a nonzero exit status returns the captured
    stderr, or a synthesized message naming the exit status when stderr is
    blank;
  - timeout: subprocess.run raises TimeoutExpired before the assignment to
    the process result variable completes, so that variable still holds None
    in the except block; the guard on the kill branch (the variable being
    truthy and having a pid attribute) is therefore always false and no kill
    is ever attempted (a CompletedProcess would lack a pid attribute
    anyway); the returned message states the configured limit and the exit
    status is -1;
  - any other exception inside the try: the message and traceback are
    returned with exit status -1;
  - finally: deletion of the temp file is attempted on every exit of the
    try, that is, on every path reached after the write completed; a
    deletion failure is only logged. -/
def execute_code (w : World) (code : String) : ExecCallResult :=
  if failedDependencies w code = [] then
    match w.tempWrite with
    | .raised msg =>
      .propagated
        ⟨msg,
         { pipCalls := pipCallsOf w code, tempFileCreated := true,
           processLaunched := false, killAttempted := false,
           unlinkAttempted := false, fileDeleted := false }⟩
    | .ok =>
      match w.procRun with
      | .completed returncode stdoutStr stderrStr =>
        .report
          { output :=
              if returncode = 0 then stdoutStr
              else if isBlankStr stderrStr then
                ("Error: Code failed (exit code " ++ toString returncode ++ "), empty stderr.")
              else ("Error: " ++ stderrStr),
            exitCode := returncode,
            classification := if returncode = 0 then .success else .runtimeFailure,
            trace := { pipCalls := pipCallsOf w code, tempFileCreated := true,
                       processLaunched := true, killAttempted := false,
                       unlinkAttempted := true, fileDeleted := w.unlinkOk } }
      | .timedOut =>
        .report
          { output := ("Error: Code execution timed out (" ++ toString timeout_seconds ++ "s)"),
            exitCode := -1,
            classification := .timeout,
            trace := { pipCalls := pipCallsOf w code, tempFileCreated := true,
                       processLaunched := true, killAttempted := false,
                       unlinkAttempted := true, fileDeleted := w.unlinkOk } }
      | .raised msg tb =>
        .report
          { output := ("Error executing code: " ++ msg ++ "\n" ++ tb),
            exitCode := -1,
            classification := .internalError,
            trace := { pipCalls := pipCallsOf w code, tempFileCreated := true,
                       processLaunched := false, killAttempted := false,
                       unlinkAttempted := true, fileDeleted := w.unlinkOk } }
  else
    .report
      { output := depFailureMessage (failedDependencies w code),
        exitCode := -1,
        classification := .dependencyFailure,
        trace := { pipCalls := pipCallsOf w code, tempFileCreated := false,
                   processLaunched := false, killAttempted := false,
                   unlinkAttempted := false, fileDeleted := false } }

/-- The trace of external actions of an execute code call, whether the call
returned a report or propagated a fault. -/
def callTrace : ExecCallResult → ExecTrace
  | .report o => o.trace
  | .propagated f => f.trace

/-- Models the Python test of the substring timed out being contained in
output.lower(). -/
def hasTimedOut (s : String) : Bool :=
  decide (("timed out".toList) <:+: (s.toList.map Char.toLower))

/-- Summary of one pass through the retry loop of the method run: the final
output and exit status, the final value of the retry counter, the number of
fix requests sent to the agent, the total number of execute code calls
(the initial one included), and whether the loop was aborted because the
agent returned no code block. -/
structure SessionTrace where
  output : String
  exitCode : Int
  retryCount : Nat
  fixRequests : Nat
  executions : Nat
  abortedNoCode : Bool
deriving DecidableEq

/-- The while condition of the retry loop of the method run, in source
order: exit status nonzero, retry counter below the maximum, and the output
(lowercased) not containing the substring timed out. -/
def loopGuard (cur : ExecOutcome) (retryCount maxRetries : Nat) : Bool :=
  (cur.exitCode != 0) && decide (retryCount < maxRetries) && !(hasTimedOut cur.output)

/-- The retry loop of the method run. The agent oracle gives, per fix
request, the code block extracted from the agent reply (none when the reply
holds no code block, which breaks the loop). The exec oracle gives the
outcome of executing a snippet at a given retry count, abstracting execute
code together with the world of that attempt. The fuel argument bounds the
recursion; runSession passes the retry maximum as fuel, which the guard
(retry counter below the maximum, counter incremented each iteration) never
exhausts, so the fuel-zero base case is unreachable from runSession. -/
def runLoopAux (agent : Nat → Option String) (exec : String → Nat → ExecOutcome)
    (maxRetries : Nat) :
    Nat → ExecOutcome → Nat → Nat → Nat → SessionTrace
  | 0, cur, rc, fixes, execs =>
    ⟨cur.output, cur.exitCode, rc, fixes, execs, false⟩
  | fuel + 1, cur, rc, fixes, execs =>
    if loopGuard cur rc maxRetries then
      match agent fixes with
      | some fixedCode =>
        runLoopAux agent exec maxRetries fuel
          (exec fixedCode (rc + 1)) (rc + 1) (fixes + 1) (execs + 1)
      | none =>
        ⟨cur.output, cur.exitCode, rc, fixes + 1, execs, true⟩
    else
      ⟨cur.output, cur.exitCode, rc, fixes, execs, false⟩

/-- One pass of the method run on a snippet from the agent: the initial
execute code call followed by the retry loop, with the retry counter
starting at zero. -/
def runSession (agent : Nat → Option String) (exec : String → Nat → ExecOutcome)
    (maxRetries : Nat) (code : String) : SessionTrace :=
  runLoopAux agent exec maxRetries maxRetries (exec code 0) 0 0 1

/-- A line is exempt when it either does not match the import pattern or the
captured name is a standard library module. -/
def lineExempt (l : List Char) : Bool :=
  match importMatch l with
  | none => true
  | some d => decide (d ∈ STANDARD_LIBRARY_MODULES)

/-- A pip oracle whose invocations all succeed. -/
def pipOkAlways : String → Bool → PipCallOutcome := fun _ _ => .ok ⟨0, "", ""⟩

/-- A world whose child process exits with status 1 and stderr boom. -/
def wBoom : World := ⟨pipOkAlways, .ok, .completed 1 "" "boom", true⟩

/-- A world whose child process run exceeds the timeout. -/
def wTimedOut : World := ⟨pipOkAlways, .ok, .timedOut, true⟩

/-- A world whose child process exits with status 1 and a stderr that happens
to contain the words timed out. -/
def wStderrTimedOut : World := ⟨pipOkAlways, .ok, .completed 1 "" "timed out", true⟩

/-- A world whose pip invocations all fail with exit status 1. -/
def wDepFail : World := ⟨fun _ _ => .ok ⟨1, "o", "e"⟩, .ok, .completed 0 "x" "", true⟩

/-- A world whose first pip attempt fails with output out1 and err1 and whose
no-cache retry fails with output out2 and err2. -/
def wPipSplit : World :=
  ⟨fun _ noCache => if noCache then .ok ⟨1, "out2", "err2"⟩ else .ok ⟨1, "out1", "err1"⟩,
   .ok, .completed 0 "" "", true⟩

/-- A world whose child process launch raises an exception. -/
def wRaised : World := ⟨pipOkAlways, .ok, .raised "boom" "tb", true⟩

/-- A world in which writing the snippet into the freshly created temp file
raises (for instance the disk is full). -/
def wWriteFault : World :=
  ⟨pipOkAlways, .raised "No space left on device", .completed 0 "" "", true⟩

/-- The report returned by execute code on the boom world for a
dependency-free snippet (tied to execute code by the lemmas below). -/
def boomOutcome : ExecOutcome :=
  ⟨"Error: boom", 1, Classification.runtimeFailure, ⟨[], true, true, false, true, true⟩⟩

/-- The report returned by execute code on the timed-out world for a
dependency-free snippet. -/
def timeoutOutcome : ExecOutcome :=
  ⟨"Error: Code execution timed out (60s)", -1, Classification.timeout,
   ⟨[], true, true, false, true, true⟩⟩

/-- The report returned by execute code on the world whose child process
fails with a stderr containing the words timed out. -/
def stderrTimedOutOutcome : ExecOutcome :=
  ⟨"Error: timed out", 1, Classification.runtimeFailure, ⟨[], true, true, false, true, true⟩⟩

/-- The report returned by execute code on the raising world for a
dependency-free snippet. -/
def raisedOutcome : ExecOutcome :=
  ⟨"Error executing code: boom\ntb", -1, Classification.internalError,
   ⟨[], true, false, false, true, true⟩⟩

/-- The report returned by execute code on the all-pip-failing world for the
snippet import numpy. -/
def depFailNumpyOutcome : ExecOutcome :=
  ⟨"Failed to install dependencies:\n- numpy: Failed to install numpy. Pip:\no\ne\n", -1,
   Classification.dependencyFailure,
   ⟨[("numpy", false), ("numpy", true)], false, false, false, false, false⟩⟩

/-- An agent oracle that always returns a code block. -/
def agentAlwaysFix : Nat → Option String := fun _ => some "fixed code"

/-- An exec oracle in which every execution returns the boom report (the
report of execute code on the boom world). -/
def execAlwaysBoom : String → Nat → ExecOutcome := fun _ _ => boomOutcome

/-- An exec oracle in which every execution returns a failing report whose
text contains the words timed out. -/
def execAlwaysTO : String → Nat → ExecOutcome := fun _ _ => stderrTimedOutOutcome

/-! ### Helper lemmas about lists, strings and the embedded functions -/

theorem list_infix_append_right {α : Type} {x a : List α} (b : List α)
    (h : x <:+: a) : x <:+: a ++ b := by
  obtain ⟨s, t, hst⟩ := h
  exact ⟨s, t ++ b, by rw [← hst]; simp⟩

theorem list_infix_append_left {α : Type} (a : List α) {x b : List α}
    (h : x <:+: b) : x <:+: a ++ b := by
  obtain ⟨s, t, hst⟩ := h
  exact ⟨a ++ s, t, by rw [← hst]; simp⟩

theorem list_prefix_append_right {α : Type} {x a : List α} (b : List α)
    (h : x <+: a) : x <+: a ++ b := by
  obtain ⟨t, ht⟩ := h
  exact ⟨t ++ b, by rw [← ht]; simp⟩

theorem str_toList_append (a b : String) : (a ++ b).toList = a.toList ++ b.toList := rfl

theorem depFail_foldl_infix_pres {x : List Char} :
    ∀ (l : List (String × String)) (acc : String), x <:+: acc.toList →
      x <:+: (List.foldl (fun a p => a ++ depFailLine p) acc l).toList := by
  intro l
  induction l with
  | nil => intro acc h; simpa using h
  | cons p t ih =>
    intro acc h
    simp only [List.foldl_cons]
    exact ih _ (by rw [str_toList_append]; exact list_infix_append_right _ h)

theorem depFail_foldl_prefix_pres {x : List Char} :
    ∀ (l : List (String × String)) (acc : String), x <+: acc.toList →
      x <+: (List.foldl (fun a p => a ++ depFailLine p) acc l).toList := by
  intro l
  induction l with
  | nil => intro acc h; simpa using h
  | cons p t ih =>
    intro acc h
    simp only [List.foldl_cons]
    exact ih _ (by rw [str_toList_append]; exact list_prefix_append_right _ h)

theorem depFail_line_infix {p : String × String} :
    ∀ (l : List (String × String)) (acc : String), p ∈ l →
      (depFailLine p).toList <:+: (List.foldl (fun a q => a ++ depFailLine q) acc l).toList := by
  intro l
  induction l with
  | nil => intro acc h; cases h
  | cons q t ih =>
    intro acc h
    simp only [List.foldl_cons]
    rcases List.mem_cons.mp h with rfl | hmem
    · refine depFail_foldl_infix_pres t _ ?_
      rw [str_toList_append]
      exact list_infix_append_left _ ⟨[], by simp⟩
    · exact ih _ hmem

theorem depFailureMessage_mem_infix {p : String × String} {l : List (String × String)}
    (h : p ∈ l) : (depFailLine p).toList <:+: (depFailureMessage l).toList :=
  depFail_line_infix l _ h

theorem depFailureMessage_header_first (l : List (String × String)) :
    ("Failed to install dependencies:\n").toList <+: (depFailureMessage l).toList :=
  depFail_foldl_prefix_pres l _ ⟨[], by simp⟩

theorem loopGuard_lt {cur : ExecOutcome} {rc maxRetries : Nat}
    (h : loopGuard cur rc maxRetries = true) : rc < maxRetries := by
  simp only [loopGuard, Bool.and_eq_true, decide_eq_true_eq] at h
  exact h.1.2

theorem loopGuard_of {cur : ExecOutcome} {rc maxRetries : Nat}
    (h1 : cur.exitCode ≠ 0) (h2 : rc < maxRetries)
    (h3 : hasTimedOut cur.output = false) : loopGuard cur rc maxRetries = true := by
  simp [loopGuard, h1, h2, h3]

theorem loopGuard_timedOut {cur : ExecOutcome} {rc maxRetries : Nat}
    (h : hasTimedOut cur.output = true) : loopGuard cur rc maxRetries = false := by
  simp [loopGuard, h]

theorem runLoopAux_timedOut (agent : Nat → Option String) (exec : String → Nat → ExecOutcome)
    (maxRetries fuel : Nat) (cur : ExecOutcome) (rc fixes execs : Nat)
    (h : hasTimedOut cur.output = true) :
    runLoopAux agent exec maxRetries fuel cur rc fixes execs =
      ⟨cur.output, cur.exitCode, rc, fixes, execs, false⟩ := by
  cases fuel with
  | zero => simp [runLoopAux]
  | succ n => simp [runLoopAux, loopGuard_timedOut h]

theorem runLoopAux_retryCount_le (agent : Nat → Option String)
    (exec : String → Nat → ExecOutcome) (maxRetries : Nat) :
    ∀ (fuel : Nat) (cur : ExecOutcome) (rc fixes execs : Nat), rc ≤ maxRetries →
      (runLoopAux agent exec maxRetries fuel cur rc fixes execs).retryCount ≤ maxRetries := by
  intro fuel
  induction fuel with
  | zero => intro cur rc fixes execs h; simpa [runLoopAux] using h
  | succ n ih =>
    intro cur rc fixes execs h
    by_cases hg : loopGuard cur rc maxRetries = true
    · cases hA : agent fixes with
      | some fc =>
        simp only [runLoopAux, hg, if_true, hA]
        exact ih _ _ _ _ (loopGuard_lt hg)
      | none => simpa [runLoopAux, hg, hA] using h
    · simpa [runLoopAux, hg] using h

theorem runLoopAux_executions (agent : Nat → Option String)
    (exec : String → Nat → ExecOutcome) (maxRetries : Nat) :
    ∀ (fuel : Nat) (cur : ExecOutcome) (rc fixes execs : Nat),
      (runLoopAux agent exec maxRetries fuel cur rc fixes execs).executions + rc =
        execs + (runLoopAux agent exec maxRetries fuel cur rc fixes execs).retryCount := by
  intro fuel
  induction fuel with
  | zero => intro cur rc fixes execs; simp [runLoopAux, Nat.add_comm]
  | succ n ih =>
    intro cur rc fixes execs
    by_cases hg : loopGuard cur rc maxRetries = true
    · cases hA : agent fixes with
      | some fc =>
        simp only [runLoopAux, hg, if_true, hA]
        have h := ih (exec fc (rc + 1)) (rc + 1) (fixes + 1) (execs + 1)
        omega
      | none => simp [runLoopAux, hg, hA, Nat.add_comm]
    · simp [runLoopAux, hg, Nat.add_comm]

theorem runLoopAux_fixRequests_le (agent : Nat → Option String)
    (exec : String → Nat → ExecOutcome) (maxRetries : Nat) :
    ∀ (fuel : Nat) (cur : ExecOutcome) (rc fixes execs : Nat), rc ≤ maxRetries →
      (runLoopAux agent exec maxRetries fuel cur rc fixes execs).fixRequests + rc ≤
        fixes + maxRetries := by
  intro fuel
  induction fuel with
  | zero => intro cur rc fixes execs h; simp [runLoopAux]; omega
  | succ n ih =>
    intro cur rc fixes execs h
    by_cases hg : loopGuard cur rc maxRetries = true
    · have hlt := loopGuard_lt hg
      cases hA : agent fixes with
      | some fc =>
        simp only [runLoopAux, hg, if_true, hA]
        have := ih (exec fc (rc + 1)) (rc + 1) (fixes + 1) (execs + 1) hlt
        omega
      | none =>
        simp only [runLoopAux, hg, if_true, hA]
        omega
    · simp [runLoopAux, hg]; omega

theorem runLoopAux_fixRequests_ge (agent : Nat → Option String)
    (exec : String → Nat → ExecOutcome) (maxRetries : Nat) :
    ∀ (fuel : Nat) (cur : ExecOutcome) (rc fixes execs : Nat),
      fixes ≤ (runLoopAux agent exec maxRetries fuel cur rc fixes execs).fixRequests := by
  intro fuel
  induction fuel with
  | zero => intro cur rc fixes execs; simp [runLoopAux]
  | succ n ih =>
    intro cur rc fixes execs
    by_cases hg : loopGuard cur rc maxRetries = true
    · cases hA : agent fixes with
      | some fc =>
        simp only [runLoopAux, hg, if_true, hA]
        have := ih (exec fc (rc + 1)) (rc + 1) (fixes + 1) (execs + 1)
        omega
      | none => simp [runLoopAux, hg, hA]
    · simp [runLoopAux, hg]

theorem runLoopAux_exhausted (agent : Nat → Option String)
    (exec : String → Nat → ExecOutcome) (maxRetries : Nat) :
    ∀ (fuel : Nat) (cur : ExecOutcome) (rc fixes execs : Nat), rc ≤ maxRetries →
      maxRetries ≤ fuel + rc →
      (runLoopAux agent exec maxRetries fuel cur rc fixes execs).exitCode ≠ 0 →
      hasTimedOut (runLoopAux agent exec maxRetries fuel cur rc fixes execs).output = false →
      (runLoopAux agent exec maxRetries fuel cur rc fixes execs).abortedNoCode = false →
      (runLoopAux agent exec maxRetries fuel cur rc fixes execs).retryCount = maxRetries := by
  intro fuel
  induction fuel with
  | zero =>
    intro cur rc fixes execs h1 h2 _ _ _
    simp only [runLoopAux]
    omega
  | succ n ih =>
    intro cur rc fixes execs h1 h2 he ht ha
    by_cases hg : loopGuard cur rc maxRetries = true
    · have hlt := loopGuard_lt hg
      cases hA : agent fixes with
      | some fc =>
        simp only [runLoopAux, hg, if_true, hA] at he ht ha ⊢
        exact ih _ _ _ _ hlt (by omega) he ht ha
      | none => simp [runLoopAux, hg, hA] at ha
    · have hg' : loopGuard cur rc maxRetries = false := by simpa using hg
      simp only [runLoopAux, hg', Bool.false_eq_true, if_false] at he ht ⊢
      have : ¬ (rc < maxRetries) := by
        intro hlt
        have : loopGuard cur rc maxRetries = true := loopGuard_of (by simpa using he) hlt (by simpa using ht)
        exact hg this
      omega

theorem timeout_msg_eq :
    (("Error: Code execution timed out (" ++ toString timeout_seconds ++ "s)")) =
      "Error: Code execution timed out (60s)" := by decide

theorem execute_code_timeout_output (w : World) (c : String) (o : ExecOutcome)
    (h : execute_code w c = ExecCallResult.report o)
    (hcl : o.classification = Classification.timeout) :
    o.output = "Error: Code execution timed out (60s)" := by
  by_cases hd : failedDependencies w c = []
  · cases hw : w.tempWrite with
    | raised msg => simp [execute_code, hd, hw] at h
    | ok =>
      cases hp : w.procRun with
      | completed rc out err =>
        simp only [execute_code, hd, if_true, hw, hp, ExecCallResult.report.injEq] at h
        subst h
        by_cases hrc : rc = 0
        · simp [hrc] at hcl
        · simp [hrc] at hcl
      | timedOut =>
        simp only [execute_code, hd, if_true, hw, hp, ExecCallResult.report.injEq] at h
        subst h
        exact timeout_msg_eq
      | raised m tb =>
        simp only [execute_code, hd, if_true, hw, hp, ExecCallResult.report.injEq] at h
        subst h
        simp at hcl
  · simp only [execute_code, hd, if_false, ExecCallResult.report.injEq] at h
    subst h
    simp at hcl

theorem execute_code_retryable_exit (w : World) (c : String) (o : ExecOutcome)
    (h : execute_code w c = ExecCallResult.report o)
    (hcl : o.classification = Classification.runtimeFailure ∨
           o.classification = Classification.dependencyFailure ∨
           o.classification = Classification.internalError) :
    o.exitCode ≠ 0 := by
  by_cases hd : failedDependencies w c = []
  · cases hw : w.tempWrite with
    | raised msg => simp [execute_code, hd, hw] at h
    | ok =>
      cases hp : w.procRun with
      | completed rc out err =>
        simp only [execute_code, hd, if_true, hw, hp, ExecCallResult.report.injEq] at h
        subst h
        by_cases hrc : rc = 0
        · simp [hrc] at hcl
        · simpa using hrc
      | timedOut =>
        simp only [execute_code, hd, if_true, hw, hp, ExecCallResult.report.injEq] at h
        subst h
        simp
      | raised m tb =>
        simp only [execute_code, hd, if_true, hw, hp, ExecCallResult.report.injEq] at h
        subst h
        simp
  · simp only [execute_code, hd, if_false, ExecCallResult.report.injEq] at h
    subst h
    simp

theorem collectDeps_nodup :
    ∀ (lines : List (List Char)) (acc : List String),
      acc.Nodup → (collectDeps lines acc).Nodup := by
  intro lines
  induction lines with
  | nil => intro acc h; simpa [collectDeps] using h
  | cons l t ih =>
    intro acc h
    simp only [collectDeps]
    cases hm : importMatch l with
    | none => exact ih acc h
    | some d =>
      by_cases h1 : d ∈ STANDARD_LIBRARY_MODULES
      · simpa [h1] using ih acc h
      · simp only [h1, if_false]
        by_cases h2 : d ∈ acc
        · simpa [h2] using ih acc h
        · simp only [h2, if_false]
          exact ih _ (by simp [List.nodup_append, h, h2])

theorem collectDeps_not_exempt :
    ∀ (lines : List (List Char)) (acc : List String),
      (∀ x ∈ acc, x ∉ STANDARD_LIBRARY_MODULES) →
      ∀ x ∈ collectDeps lines acc, x ∉ STANDARD_LIBRARY_MODULES := by
  intro lines
  induction lines with
  | nil => intro acc h; simpa [collectDeps] using h
  | cons l t ih =>
    intro acc h
    simp only [collectDeps]
    cases hm : importMatch l with
    | none => exact ih acc h
    | some d =>
      by_cases h1 : d ∈ STANDARD_LIBRARY_MODULES
      · simpa [h1] using ih acc h
      · simp only [h1, if_false]
        by_cases h2 : d ∈ acc
        · simpa [h2] using ih acc h
        · simp only [h2, if_false]
          refine ih _ ?_
          intro x hx
          rcases List.mem_append.mp hx with hx | hx
          · exact h x hx
          · rcases List.mem_singleton.mp hx with rfl
            exact h1

theorem collectDeps_all_exempt :
    ∀ (lines : List (List Char)) (acc : List String),
      (∀ l ∈ lines, lineExempt l = true) → collectDeps lines acc = acc := by
  intro lines
  induction lines with
  | nil => intro acc _; simp [collectDeps]
  | cons l t ih =>
    intro acc h
    have hl : lineExempt l = true := h l (by simp)
    have ht : ∀ x ∈ t, lineExempt x = true := fun x hx => h x (by simp [hx])
    simp only [collectDeps]
    cases hm : importMatch l with
    | none => exact ih acc ht
    | some d =>
      have h1 : d ∈ STANDARD_LIBRARY_MODULES := by
        simp only [lineExempt, hm, decide_eq_true_eq] at hl
        exact hl
      simpa [h1] using ih acc ht

theorem lookup_mem {l : List (String × String)} {a b : String}
    (h : l.lookup a = some b) : (a, b) ∈ l := by
  induction l with
  | nil => simp [List.lookup] at h
  | cons p t ih =>
    cases p with
    | mk k v =>
      rw [List.lookup] at h
      by_cases hk : (a == k) = true
      · have hk' : a = k := by simpa using hk
        simp only [hk] at h
        cases h
        simp [hk']
      · have hk2 : (a == k) = false := by simpa using hk
        simp only [hk2] at h
        exact List.mem_cons_of_mem _ (ih h)

theorem install_dependency_shape (w : World) (dep : String) (rcnt : Nat) :
    (install_dependency w dep rcnt).2 = [] ∨
    (install_dependency w dep rcnt).2 =
      [((PACKAGE_INSTALL_MAPPING.lookup dep).getD dep, false)] ∨
    (install_dependency w dep rcnt).2 =
      [((PACKAGE_INSTALL_MAPPING.lookup dep).getD dep, false),
       ((PACKAGE_INSTALL_MAPPING.lookup dep).getD dep, true)] := by
  simp only [install_dependency]
  by_cases hstd : dep ∈ STANDARD_LIBRARY_MODULES
  · simp [hstd]
  · rw [if_neg hstd]
    cases h1 : w.pipInstall ((PACKAGE_INSTALL_MAPPING.lookup dep).getD dep) false with
    | raised e => simp
    | ok r =>
      by_cases hr : r.returncode = 0
      · simp [hr]
      · by_cases hcnt : rcnt < max_dependency_install_retries
        · cases h2 : w.pipInstall ((PACKAGE_INSTALL_MAPPING.lookup dep).getD dep) true with
          | raised e => simp [hr, hcnt]
          | ok r2 => by_cases hr2 : r2.returncode = 0 <;> simp [hr, hcnt, hr2]
        · simp [hr, hcnt]

/-! ### Claim theorems -/

/-- C1 (amended): in a session with the default maximum of 3, the retry
counter never exceeds 3 and at most 3 fix requests are sent; the session
ends still failing (nonzero exit status, no timeout wording in the output,
not aborted for lack of a code block) only with the counter at 3, that is,
with the budget exhausted and no additional repair request. However the
counter counts repair executions only, so the total number of execute code
calls is the final counter plus one: after the first three consecutive
RuntimeFailure classifications a fourth execution still occurs, and the
session is exhausted only after the fourth consecutive failing
classification. -/
theorem c1_retry_budget (agent : Nat → Option String)
    (exec : String → Nat → ExecOutcome) (code : String) :
    (runSession agent exec max_code_retries code).retryCount ≤ max_code_retries ∧
    (runSession agent exec max_code_retries code).fixRequests ≤ max_code_retries ∧
    (runSession agent exec max_code_retries code).executions =
      (runSession agent exec max_code_retries code).retryCount + 1 ∧
    ((runSession agent exec max_code_retries code).exitCode ≠ 0 →
      hasTimedOut (runSession agent exec max_code_retries code).output = false →
      (runSession agent exec max_code_retries code).abortedNoCode = false →
      (runSession agent exec max_code_retries code).retryCount = max_code_retries) := by
  refine ⟨?_, ?_, ?_, ?_⟩
  · simpa [runSession] using
      runLoopAux_retryCount_le agent exec max_code_retries max_code_retries
        (exec code 0) 0 0 1 (Nat.zero_le _)
  · have h := runLoopAux_fixRequests_le agent exec max_code_retries max_code_retries
      (exec code 0) 0 0 1 (Nat.zero_le _)
    simp only [runSession]
    omega
  · have h := runLoopAux_executions agent exec max_code_retries max_code_retries
      (exec code 0) 0 0 1
    simp only [runSession]
    omega
  · intro he ht ha
    simp only [runSession] at he ht ha ⊢
    exact runLoopAux_exhausted agent exec max_code_retries max_code_retries
      (exec code 0) 0 0 1 (Nat.zero_le _) (by omega) he ht ha

/-- C1 witness: a session in which every execution fails with a plain
runtime error and the agent always answers with a code block exhausts the
whole budget. -/
theorem c1_witness :
    (runSession agentAlwaysFix execAlwaysBoom max_code_retries "print(1)").retryCount =
      max_code_retries ∧
    (runSession agentAlwaysFix execAlwaysBoom max_code_retries "print(1)").executions =
      (runSession agentAlwaysFix execAlwaysBoom max_code_retries "print(1)").retryCount + 1 := by
  have h := c1_retry_budget agentAlwaysFix execAlwaysBoom "print(1)"
  exact ⟨h.2.2.2 (by decide) (by decide) (by decide), h.2.2.1⟩

/-- C1 counterexample: with max attempts 3 and every execution classified
RuntimeFailure, the session performs four executions in total, so after the
first three consecutive RuntimeFailure classifications a fourth execution
does occur, contrary to the claim. -/
theorem c1_counterexample :
    execute_code wBoom "print(1)" = ExecCallResult.report boomOutcome ∧
    boomOutcome.classification = Classification.runtimeFailure ∧
    (runSession agentAlwaysFix execAlwaysBoom 3 "print(1)").executions = 4 ∧
    (runSession agentAlwaysFix execAlwaysBoom 3 "print(1)").fixRequests = 3 := by decide

/-- C2: from any loop state whose current report comes from an execution
attempt classified Timeout, the retry loop returns at once: no further fix
request is sent and no further execution happens, regardless of the
remaining attempt budget. -/
theorem c2_timeout_never_retried (w : World) (c : String) (o : ExecOutcome)
    (agent : Nat → Option String) (exec : String → Nat → ExecOutcome)
    (maxRetries fuel rc fixes execs : Nat)
    (h : execute_code w c = ExecCallResult.report o)
    (hcl : o.classification = Classification.timeout) :
    runLoopAux agent exec maxRetries fuel o rc fixes execs =
      ⟨o.output, o.exitCode, rc, fixes, execs, false⟩ := by
  apply runLoopAux_timedOut
  rw [execute_code_timeout_output w c o h hcl]
  decide

/-- C2 witness: a concrete timed-out attempt with the full budget remaining
is not retried. -/
theorem c2_witness :
    runLoopAux agentAlwaysFix execAlwaysBoom 3 3 timeoutOutcome 0 0 1 =
      ⟨timeoutOutcome.output, timeoutOutcome.exitCode, 0, 0, 1, false⟩ :=
  c2_timeout_never_retried wTimedOut "print(1)" timeoutOutcome agentAlwaysFix
    execAlwaysBoom 3 3 0 0 1 (by decide) (by decide)

/-- C3 (amended): an attempt classified RuntimeFailure, DependencyFailure or
InternalError with the retry counter below the maximum leads to a fix
request, provided the report text does not contain the substring timed out
(case-insensitively); retry eligibility in the source is decided by that
substring test on the report text, not by the classification itself. -/
theorem c3_retryable_requests_fix (w : World) (c : String) (o : ExecOutcome)
    (agent : Nat → Option String) (exec : String → Nat → ExecOutcome)
    (maxRetries fuel rc fixes execs : Nat)
    (h : execute_code w c = ExecCallResult.report o)
    (hclass : o.classification = Classification.runtimeFailure ∨
              o.classification = Classification.dependencyFailure ∨
              o.classification = Classification.internalError)
    (hrc : rc < maxRetries)
    (ht : hasTimedOut o.output = false) :
    fixes + 1 ≤
      (runLoopAux agent exec maxRetries (fuel + 1) o rc fixes execs).fixRequests := by
  have hg : loopGuard o rc maxRetries = true :=
    loopGuard_of (execute_code_retryable_exit w c o h hclass) hrc ht
  cases hA : agent fixes with
  | some fc =>
    simp only [runLoopAux, hg, if_true, hA]
    have hge := runLoopAux_fixRequests_ge agent exec maxRetries fuel
      (exec fc (rc + 1)) (rc + 1) (fixes + 1) (execs + 1)
    omega
  | none => simp [runLoopAux, hg, hA]

/-- C3 witness: a plain runtime failure with budget remaining and no timeout
wording in the report leads to at least one fix request. -/
theorem c3_witness :
    0 + 1 ≤
      (runLoopAux agentAlwaysFix execAlwaysBoom 3 (2 + 1) boomOutcome 0 0 1).fixRequests :=
  c3_retryable_requests_fix wBoom "print(1)" boomOutcome agentAlwaysFix execAlwaysBoom
    3 2 0 0 1 (by decide) (Or.inl (by decide)) (by decide) (by decide)

/-- C3 counterexample: an attempt classified RuntimeFailure (the child
process exited with status 1) whose stderr happens to contain the words
timed out is not retried even though the counter is far below the maximum:
the session sends no fix request at all. -/
theorem c3_counterexample :
    execute_code wStderrTimedOut "print(1)" = ExecCallResult.report stderrTimedOutOutcome ∧
    stderrTimedOutOutcome.classification = Classification.runtimeFailure ∧
    0 < max_code_retries ∧
    (runSession agentAlwaysFix execAlwaysTO max_code_retries "print(1)").fixRequests = 0 := by
  decide

/-- C4: at the failing input (a dependency-free snippet whose child process
run exceeds the timeout) the attempt returns the Timeout report, yet the
sandbox never attempts to kill the child process: in the source the kill
branch is guarded by the process result variable being truthy and having a
pid attribute, and on the timeout path that variable still holds None
because subprocess.run raises TimeoutExpired before the assignment
completes, so the guard is always false and the taskkill and kill branches
are dead code. -/
theorem c4_kill_never_attempted :
    execute_code wTimedOut "while True: pass" = ExecCallResult.report timeoutOutcome ∧
    timeoutOutcome.classification = Classification.timeout ∧
    timeoutOutcome.trace.killAttempted = false := by decide

/-- C5 (amended): when the first pip attempt for a non-exempt name completes
with a nonzero result, exactly one additional attempt is performed, with the
no-cache-dir flag; the final success flag is the outcome of that retry, but
the diagnostic text reported when the retry also fails is the pip output of
the first attempt, not that of the retry. -/
theorem c5_retry_once (w : World) (dep : String) (r1 : PipResult)
    (hstd : dep ∉ STANDARD_LIBRARY_MODULES)
    (h1 : w.pipInstall ((PACKAGE_INSTALL_MAPPING.lookup dep).getD dep) false = .ok r1)
    (hr1 : r1.returncode ≠ 0) :
    (install_dependency w dep 0).2 =
      [((PACKAGE_INSTALL_MAPPING.lookup dep).getD dep, false),
       ((PACKAGE_INSTALL_MAPPING.lookup dep).getD dep, true)] ∧
    (∀ r2, w.pipInstall ((PACKAGE_INSTALL_MAPPING.lookup dep).getD dep) true = .ok r2 →
      ((install_dependency w dep 0).1.1 = decide (r2.returncode = 0)) ∧
      (r2.returncode = 0 → (install_dependency w dep 0).1.2 = "") ∧
      (r2.returncode ≠ 0 →
        (install_dependency w dep 0).1.2 =
          ("Failed to install " ++ dep ++ ". Pip:\n" ++ r1.stdout ++ "\n" ++ r1.stderr))) ∧
    (∀ e, w.pipInstall ((PACKAGE_INSTALL_MAPPING.lookup dep).getD dep) true = .raised e →
      (install_dependency w dep 0).1.1 = false) := by
  have hcnt : (0 : Nat) < max_dependency_install_retries := by
    simp [max_dependency_install_retries]
  refine ⟨?_, ?_, ?_⟩
  · simp only [install_dependency, if_neg hstd, h1, if_neg hr1, if_pos hcnt]
    cases h2 : w.pipInstall ((PACKAGE_INSTALL_MAPPING.lookup dep).getD dep) true with
    | raised e => simp
    | ok r2 => by_cases hr2 : r2.returncode = 0 <;> simp [hr2]
  · intro r2 h2
    simp only [install_dependency, if_neg hstd, h1, if_neg hr1, if_pos hcnt, h2]
    by_cases hr2 : r2.returncode = 0 <;> simp [hr2]
  · intro e h2
    simp only [install_dependency, if_neg hstd, h1, if_neg hr1, if_pos hcnt, h2]

/-- C5 witness: a concrete failing first attempt is followed by exactly one
no-cache retry, and since the retry also fails the reported message is the
one built from the first attempt. -/
theorem c5_witness :
    (install_dependency wPipSplit "foo" 0).2 = [("foo", false), ("foo", true)] ∧
    (install_dependency wPipSplit "foo" 0).1.2 =
      "Failed to install foo. Pip:\nout1\nerr1" := by
  have h := c5_retry_once wPipSplit "foo" ⟨1, "out1", "err1"⟩ (by decide) (by decide)
    (by decide)
  refine ⟨h.1, ?_⟩
  have h2 := (h.2.1 ⟨1, "out2", "err2"⟩ (by decide)).2.2 (by decide)
  rw [h2]
  decide

/-- C5 counterexample: with the first attempt failing with err1 and the
retry failing with err2, the final reported outcome carries the first
attempt diagnostic, and the retry diagnostic err2 appears nowhere in it, so
the reported final outcome is not the retry outcome. -/
theorem c5_counterexample :
    (install_dependency wPipSplit "foo" 0).1 =
      (false, "Failed to install foo. Pip:\nout1\nerr1") ∧
    (install_dependency wPipSplit "foo" 0).2 = [("foo", false), ("foo", true)] ∧
    ¬ (("err2".toList) <:+: ((install_dependency wPipSplit "foo" 0).1.2).toList) := by
  decide

/-- C6: when at least one dependency of the snippet fails to install, the
attempt takes the dependency failure path: exit status -1, no temp file, no
child process launch, and the report aggregates one line per failing
dependency holding the name and its diagnostic text; every extracted
dependency whose installation failed is listed. -/
theorem c6_dependency_gate (w : World) (c : String)
    (h : failedDependencies w c ≠ []) :
    execute_code w c =
      ExecCallResult.report
        { output := depFailureMessage (failedDependencies w c),
          exitCode := -1,
          classification := Classification.dependencyFailure,
          trace := { pipCalls := pipCallsOf w c, tempFileCreated := false,
                     processLaunched := false, killAttempted := false,
                     unlinkAttempted := false, fileDeleted := false } } ∧
    (∀ p ∈ failedDependencies w c,
      (depFailLine p).toList <:+: (depFailureMessage (failedDependencies w c)).toList) ∧
    (∀ d ∈ extract_dependencies c, (install_dependency w d 0).1.1 = false →
      (d, (install_dependency w d 0).1.2) ∈ failedDependencies w c) := by
  refine ⟨by simp [execute_code, h], ?_, ?_⟩
  · intro p hp
    exact depFailureMessage_mem_infix hp
  · intro d hd hfail
    simp only [failedDependencies, List.mem_filterMap]
    exact ⟨d, hd, by simp [hfail]⟩

/-- C6 witness: with every pip invocation failing, a snippet importing numpy
returns the DependencyFailure report, whose trace records both pip attempts
for numpy, no temp file and no process launch. -/
theorem c6_witness :
    execute_code wDepFail "import numpy" =
      ExecCallResult.report
        { output := depFailureMessage (failedDependencies wDepFail "import numpy"),
          exitCode := -1,
          classification := Classification.dependencyFailure,
          trace := { pipCalls := pipCallsOf wDepFail "import numpy", tempFileCreated := false,
                     processLaunched := false, killAttempted := false,
                     unlinkAttempted := false, fileDeleted := false } } :=
  (c6_dependency_gate wDepFail "import numpy" (by decide)).1

/-- C7: the installer always invokes pip with the name obtained from the
alias table: for a module name present in PACKAGE_INSTALL_MAPPING every pip
invocation uses the mapped name, which differs from the original imported
name, and for a name not in the table every pip invocation uses the name
itself. -/
theorem c7_alias_table (w : World) (dep : String) :
    (∀ pkg, PACKAGE_INSTALL_MAPPING.lookup dep = some pkg →
      ((install_dependency w dep 0).2.all (fun call => call.1 == pkg)) = true ∧
      ¬ pkg = dep) ∧
    (PACKAGE_INSTALL_MAPPING.lookup dep = none →
      ((install_dependency w dep 0).2.all (fun call => call.1 == dep)) = true) := by
  constructor
  · intro pkg hl
    constructor
    · rcases install_dependency_shape w dep 0 with h | h | h <;> simp [h, hl]
    · have hmem : (dep, pkg) ∈ PACKAGE_INSTALL_MAPPING := lookup_mem hl
      have hne : ∀ p ∈ PACKAGE_INSTALL_MAPPING, ¬ p.2 = p.1 := by decide
      intro hEq
      exact hne _ hmem (by simpa using hEq)
  · intro hl
    rcases install_dependency_shape w dep 0 with h | h | h <;> simp [h, hl]

/-- C7 witness: the aliased name PIL installs as pillow (never as PIL), and
the unmapped name numpy installs as numpy. -/
theorem c7_witness :
    ((install_dependency wDepFail "PIL" 0).2.all (fun call => call.1 == "pillow")) = true ∧
    ¬ ("pillow" = "PIL") ∧
    ((install_dependency wDepFail "numpy" 0).2.all (fun call => call.1 == "numpy")) = true := by
  have h1 := (c7_alias_table wDepFail "PIL").1 "pillow" (by decide)
  have h2 := (c7_alias_table wDepFail "numpy").2 (by decide)
  exact ⟨h1.1, h1.2, h2⟩

/-- C8: extraction is a total function of the snippet (lines that do not
match the import pattern are simply not collected), its result is
duplicate-free and contains no name of the exempt set, and when every line
of the snippet is exempt (it does not match the pattern, or the captured
name is a standard library module) the result is empty and the subsequent
execute code call performs zero pip invocations. -/
theorem c8_extraction (w : World) (code : String) :
    (extract_dependencies code).Nodup ∧
    (∀ d ∈ extract_dependencies code, d ∉ STANDARD_LIBRARY_MODULES) ∧
    ((∀ l ∈ splitLines code, lineExempt l = true) → extract_dependencies code = []) ∧
    (extract_dependencies code = [] →
      (callTrace (execute_code w code)).pipCalls = []) := by
  refine ⟨collectDeps_nodup _ _ (by simp),
          collectDeps_not_exempt _ _ (by simp), ?_, ?_⟩
  · intro hall
    exact collectDeps_all_exempt _ _ hall
  · intro hempty
    have hpc : pipCallsOf w code = [] := by simp [pipCallsOf, hempty]
    have hfd : failedDependencies w code = [] := by simp [failedDependencies, hempty]
    cases hw : w.tempWrite with
    | raised msg => simp [execute_code, callTrace, hfd, hw, hpc]
    | ok => cases hp : w.procRun <;> simp [execute_code, callTrace, hfd, hw, hp, hpc]

/-- C8 witness: a snippet whose imports are all standard library modules
extracts to the empty list, and its execution performs no pip invocation. -/
theorem c8_witness :
    extract_dependencies "import os\nimport sys\nfrom json import dumps" = [] ∧
    (callTrace (execute_code wDepFail "import os\nimport sys\nfrom json import dumps")).pipCalls =
      [] := by
  have h := c8_extraction wDepFail "import os\nimport sys\nfrom json import dumps"
  have he : extract_dependencies "import os\nimport sys\nfrom json import dumps" = [] :=
    h.2.2.1 (by decide)
  exact ⟨he, h.2.2.2 he⟩

/-- C9 (amended): on every exit path of the guarded run phase - every path
that returns a report, the Timeout and InternalError ones included - the
attempt that created the transient file also attempts its deletion, and a
deletion failure is never propagated: the returned report differs at most in
the bookkeeping flag recording whether the deletion succeeded. However, a
fault raised while writing the snippet into the freshly created temp file
strikes before the try/finally is armed: on that path the created file is
never deleted and the fault propagates to the caller. -/
theorem c9_cleanup (w : World) (code : String) (b : Bool) :
    (∀ o, execute_code w code = ExecCallResult.report o →
      o.trace.tempFileCreated = true → o.trace.unlinkAttempted = true) ∧
    (failedDependencies w code = [] → w.tempWrite = TempWriteOutcome.ok →
      ∀ o, execute_code w code = ExecCallResult.report o →
        o.trace.tempFileCreated = true ∧ o.trace.unlinkAttempted = true) ∧
    (∀ o, execute_code w code = ExecCallResult.report o →
      execute_code { w with unlinkOk := b } code =
        ExecCallResult.report
          ⟨o.output, o.exitCode, o.classification,
           ⟨o.trace.pipCalls, o.trace.tempFileCreated, o.trace.processLaunched,
            o.trace.killAttempted, o.trace.unlinkAttempted,
            o.trace.unlinkAttempted && b⟩⟩) ∧
    (∀ f, execute_code w code = ExecCallResult.propagated f →
      f.trace.tempFileCreated = true ∧ f.trace.unlinkAttempted = false) := by
  obtain ⟨pi, tw, pr, ul⟩ := w
  have hfd : failedDependencies ⟨pi, tw, pr, b⟩ code =
      failedDependencies ⟨pi, tw, pr, ul⟩ code := rfl
  have hpc : pipCallsOf ⟨pi, tw, pr, b⟩ code = pipCallsOf ⟨pi, tw, pr, ul⟩ code := rfl
  by_cases hd : failedDependencies ⟨pi, tw, pr, ul⟩ code = []
  · cases tw with
    | raised msg =>
      refine ⟨?_, ?_, ?_, ?_⟩
      · intro o ho; simp [execute_code, hd] at ho
      · intro _ htw; simp at htw
      · intro o ho; simp [execute_code, hd] at ho
      · intro f hf
        simp only [execute_code, hd, if_true, ExecCallResult.propagated.injEq] at hf
        subst hf
        exact ⟨rfl, rfl⟩
    | ok =>
      cases pr with
      | completed rc out err =>
        refine ⟨?_, ?_, ?_, ?_⟩
        · intro o ho
          simp only [execute_code, hd, if_true, ExecCallResult.report.injEq] at ho
          subst ho
          intro _; rfl
        · intro _ _ o ho
          simp only [execute_code, hd, if_true, ExecCallResult.report.injEq] at ho
          subst ho
          exact ⟨rfl, rfl⟩
        · intro o ho
          simp only [execute_code, hd, if_true, ExecCallResult.report.injEq] at ho
          subst ho
          simp [execute_code, hfd, hd, hpc]
        · intro f hf; simp [execute_code, hd] at hf
      | timedOut =>
        refine ⟨?_, ?_, ?_, ?_⟩
        · intro o ho
          simp only [execute_code, hd, if_true, ExecCallResult.report.injEq] at ho
          subst ho
          intro _; rfl
        · intro _ _ o ho
          simp only [execute_code, hd, if_true, ExecCallResult.report.injEq] at ho
          subst ho
          exact ⟨rfl, rfl⟩
        · intro o ho
          simp only [execute_code, hd, if_true, ExecCallResult.report.injEq] at ho
          subst ho
          simp [execute_code, hfd, hd, hpc]
        · intro f hf; simp [execute_code, hd] at hf
      | raised m tb =>
        refine ⟨?_, ?_, ?_, ?_⟩
        · intro o ho
          simp only [execute_code, hd, if_true, ExecCallResult.report.injEq] at ho
          subst ho
          intro _; rfl
        · intro _ _ o ho
          simp only [execute_code, hd, if_true, ExecCallResult.report.injEq] at ho
          subst ho
          exact ⟨rfl, rfl⟩
        · intro o ho
          simp only [execute_code, hd, if_true, ExecCallResult.report.injEq] at ho
          subst ho
          simp [execute_code, hfd, hd, hpc]
        · intro f hf; simp [execute_code, hd] at hf
  · refine ⟨?_, ?_, ?_, ?_⟩
    · intro o ho
      simp only [execute_code, hd, if_false, ExecCallResult.report.injEq] at ho
      subst ho
      intro hc; simp at hc
    · intro hc; exact absurd hc hd
    · intro o ho
      simp only [execute_code, hd, if_false, ExecCallResult.report.injEq] at ho
      subst ho
      simp [execute_code, hfd, hd, hpc]
    · intro f hf; simp [execute_code, hd] at hf

/-- C9 witness: on a timed-out attempt the deletion of the transient file is
attempted, and a failing deletion changes nothing of the returned report but
the bookkeeping flag. -/
theorem c9_witness :
    timeoutOutcome.trace.tempFileCreated = true ∧
    timeoutOutcome.trace.unlinkAttempted = true ∧
    execute_code { wTimedOut with unlinkOk := false } "print(1)" =
      ExecCallResult.report
        ⟨timeoutOutcome.output, timeoutOutcome.exitCode, timeoutOutcome.classification,
         ⟨timeoutOutcome.trace.pipCalls, timeoutOutcome.trace.tempFileCreated,
          timeoutOutcome.trace.processLaunched, timeoutOutcome.trace.killAttempted,
          timeoutOutcome.trace.unlinkAttempted,
          timeoutOutcome.trace.unlinkAttempted && false⟩⟩ := by
  have h := c9_cleanup wTimedOut "print(1)" false
  have h2 := h.2.1 (by decide) (by decide) timeoutOutcome (by decide)
  exact ⟨h2.1, h2.2, h.2.2.1 timeoutOutcome (by decide)⟩

/-- C9 counterexample: an attempt in which the pip gate passes, the temp
file is created, and the write of the snippet into it raises: the call
propagates the fault to the caller, with the file created and its deletion
never attempted - an exit path on which the transient file is not
deleted. -/
theorem c9_counterexample :
    execute_code wWriteFault "print(1)" =
      ExecCallResult.propagated
        ⟨"No space left on device", ⟨[], true, false, false, false, false⟩⟩ := by decide

/-- C10: the three paths of execute code that return a report without a
completed child process result all return exit status -1 — the dependency
failure path, the timeout path and the internal error path — so those
failure kinds are not distinguishable by exit status; they are
distinguishable only by the report text, whose shapes the three conjuncts
exhibit. -/
theorem c10_exit_status (w : World) (c : String) :
    (failedDependencies w c ≠ [] → ∀ o, execute_code w c = ExecCallResult.report o →
      o.exitCode = -1 ∧
      ("Failed to install dependencies:\n").toList <+: o.output.toList) ∧
    (failedDependencies w c = [] → w.procRun = ProcOutcome.timedOut →
      ∀ o, execute_code w c = ExecCallResult.report o →
        o.exitCode = -1 ∧
        o.output = "Error: Code execution timed out (60s)") ∧
    (∀ m tb, failedDependencies w c = [] → w.procRun = ProcOutcome.raised m tb →
      ∀ o, execute_code w c = ExecCallResult.report o →
        o.exitCode = -1 ∧
        o.output = ("Error executing code: " ++ m ++ "\n" ++ tb)) := by
  refine ⟨?_, ?_, ?_⟩
  · intro h o ho
    simp only [execute_code, h, if_false, ExecCallResult.report.injEq] at ho
    subst ho
    exact ⟨rfl, depFailureMessage_header_first _⟩
  · intro h hp o ho
    cases hw : w.tempWrite with
    | raised msg => simp [execute_code, h, hw] at ho
    | ok =>
      simp only [execute_code, h, if_true, hw, hp, ExecCallResult.report.injEq] at ho
      subst ho
      exact ⟨rfl, timeout_msg_eq⟩
  · intro m tb h hp o ho
    cases hw : w.tempWrite with
    | raised msg => simp [execute_code, h, hw] at ho
    | ok =>
      simp only [execute_code, h, if_true, hw, hp, ExecCallResult.report.injEq] at ho
      subst ho
      exact ⟨rfl, rfl⟩

/-- C10 witness: concrete attempts on the three paths all return exit
status -1. -/
theorem c10_witness :
    depFailNumpyOutcome.exitCode = -1 ∧
    timeoutOutcome.exitCode = -1 ∧
    raisedOutcome.exitCode = -1 := by
  have h1 := (c10_exit_status wDepFail "import numpy").1 (by decide)
    depFailNumpyOutcome (by decide)
  have h2 := (c10_exit_status wTimedOut "print(1)").2.1 (by decide) (by decide)
    timeoutOutcome (by decide)
  have h3 := (c10_exit_status wRaised "print(1)").2.2 "boom" "tb" (by decide) (by decide)
    raisedOutcome (by decide)
  exact ⟨h1.1, h2.1, h3.1⟩
